import Mathlib

/-!
Verification development for the HandofRhythm repository.

The definitions below are a shallow embedding of the gesture-driven particle
simulation in src/App.tsx (the JazzCanvas sketch), the shared type
declarations, and the HandTracker service.  JavaScript numbers are modelled
as elements of a linear ordered field (instantiated at the rationals where
the code is exact arithmetic, and at the reals where the code takes square
roots or trigonometric functions).  Randomness and the external noise field
are modelled as explicit parameters.
-/

namespace HandsOfRhythm

/-! ### p5 helpers

`p5map` is the p5.js map function with no bound clamping:
`map(v, a1, b1, a2, b2) = a2 + (b2 - a2) * ((v - a1) / (b1 - a1))`. -/

def p5map {F : Type} [Field F] (v a1 b1 a2 b2 : F) : F :=
  a2 + (b2 - a2) * ((v - a1) / (b1 - a1))

/-! ### Hand signal mapper (src/App.tsx, getHandOpenness and onHandResults)

`getHandOpenness` takes the landmark list of one detected hand: if the list
is missing or shorter than 21 points it returns 0, otherwise it averages the
Euclidean distance from the wrist (index 0) to the four fingertips
(indices 8, 12, 16, 20), rescales by `(avg - 0.15) / 0.25` and clamps to
`[0,1]`.  The reported squeeze for the hand is `1 - openness`. -/

structure Landmark where
  x : ℝ
  y : ℝ

def tipIndices : List Nat := [8, 12, 16, 20]

noncomputable def landmarkTipDist (wrist tip : Landmark) : ℝ :=
  Real.sqrt ((tip.x - wrist.x) ^ 2 + (tip.y - wrist.y) ^ 2)

noncomputable def avgTipWristDist (lms : List Landmark) : ℝ :=
  ((tipIndices.map fun i =>
      landmarkTipDist (lms.getD 0 ⟨0, 0⟩) (lms.getD i ⟨0, 0⟩)).sum) / 4

/-- Openness as a function of the average fingertip-to-wrist distance:
the expression `Math.max(0, Math.min(1, (avgDist - 0.15) / 0.25))`. -/
def opennessOfAvgDist {F : Type} [LinearOrderedField F] (d : F) : F :=
  max 0 (min 1 ((d - 15 / 100) / (25 / 100)))

/-- Squeeze as a function of the average fingertip-to-wrist distance:
`squeeze = 1 - openness` (src/App.tsx line 253). -/
def squeezeOfAvgDist {F : Type} [LinearOrderedField F] (d : F) : F :=
  1 - opennessOfAvgDist d

noncomputable def getHandOpenness (lms : Option (List Landmark)) : ℝ :=
  match lms with
  | none => 0
  | some l => if l.length < 21 then 0 else opennessOfAvgDist (avgTipWristDist l)

/-- The squeeze value reported for one hand in onHandResults. -/
noncomputable def reportedSqueeze (lms : Option (List Landmark)) : ℝ :=
  1 - getHandOpenness lms

/-! ### Beat flash (src/App.tsx, onBeat callback and p.draw lines 330-335)

Each draw tick executes
`if (beatFlashRef.current > 0.01) { ...; beatFlashRef.current *= 0.9 }`;
the multiplication by 0.9 therefore happens only while the flash exceeds
0.01.  `beatFlashAfter n` is the flash intensity after `n` ticks with no
further beat events, starting from the value 1.0 set by the beat callback. -/

def beatFlashTick (f : ℚ) : ℚ :=
  if f > 1 / 100 then f * (9 / 10) else f

def beatFlashAfter : ℕ → ℚ
  | 0 => 1
  | n + 1 => beatFlashTick (beatFlashAfter n)

/-! ### Helper lemmas for the beat flash -/

theorem pow_nine_tenths_gt (n : ℕ) (h : n ≤ 43) : (1 : ℚ) / 100 < (9 / 10) ^ n := by
  have h43 : (1 : ℚ) / 100 < (9 / 10) ^ 43 := by norm_num
  have hmono : ((9 : ℚ) / 10) ^ 43 ≤ (9 / 10) ^ n :=
    pow_le_pow_of_le_one (by norm_num) (by norm_num) h
  linarith

theorem beatFlashAfter_of_le (n : ℕ) (h : n ≤ 44) :
    beatFlashAfter n = (9 / 10) ^ n := by
  induction n with
  | zero => rfl
  | succ m ih =>
    have hm : m ≤ 43 := Nat.lt_succ_iff.mp (Nat.lt_of_lt_of_le (Nat.lt_succ_self m) h)
    have ihm : beatFlashAfter m = (9 / 10) ^ m := ih (Nat.le_trans hm (by norm_num))
    have hgt : (1 : ℚ) / 100 < (9 / 10) ^ m := pow_nine_tenths_gt m hm
    calc beatFlashAfter (m + 1) = beatFlashTick (beatFlashAfter m) := rfl
      _ = beatFlashTick ((9 / 10) ^ m) := by rw [ihm]
      _ = (9 / 10) ^ m * (9 / 10) := by
          unfold beatFlashTick
          rw [if_pos hgt]
      _ = (9 / 10) ^ (m + 1) := (pow_succ _ _).symm

theorem beatFlashAfter_of_ge (n : ℕ) (h : 44 ≤ n) :
    beatFlashAfter n = (9 / 10) ^ 44 := by
  induction n with
  | zero => omega
  | succ m ih =>
    rcases Nat.lt_or_ge m 44 with hm | hm
    · have hm44 : m + 1 = 44 := by omega
      rw [hm44]
      exact beatFlashAfter_of_le 44 (le_refl 44)
    · have ihm : beatFlashAfter m = (9 / 10) ^ 44 := ih hm
      have hle : ¬ ((9 : ℚ) / 10) ^ 44 > 1 / 100 := by norm_num
      calc beatFlashAfter (m + 1) = beatFlashTick (beatFlashAfter m) := rfl
        _ = beatFlashTick ((9 / 10) ^ 44) := by rw [ihm]
        _ = (9 / 10) ^ 44 := by
            unfold beatFlashTick
            rw [if_neg hle]

/-! ### Note triggers (src/App.tsx, p.draw lines 346-354)

A trigger is created with life 1.0 by the onNoteTriggered callback.  Each
tick draws a ring whose circle size argument is `(1.0 - life) * 200` and
whose stroke alpha is `life * 100`, then decrements life by `0.05` and
removes the trigger once the decremented life is at most 0.
`noteTriggerAfter n` is the surviving life (if any) after `n` ticks. -/

def noteRingSize (life : ℚ) : ℚ := (1 - life) * 200

def noteRingAlpha (life : ℚ) : ℚ := life * 100

def noteTriggerStep (life : ℚ) : Option ℚ :=
  let life2 := life - 5 / 100
  if life2 ≤ 0 then none else some life2

def noteTriggerAfter : ℕ → Option ℚ
  | 0 => some 1
  | n + 1 => (noteTriggerAfter n).bind noteTriggerStep

/-! ### Vortex particles (src/App.tsx, VortexParticle lines 491-521)

The random draws made by `respawn` are modelled as an explicit record of
sampled values; the source draws `x` in `[-width, width)`, `y` in
`[-height, height)`, `z` in `[1000, 2000)`, `oX`, `oY` in `[-1, 1)` and
`speed` in `[10, 30)`.  `update` first decrements the depth by
`speed + flash * 50` and then respawns when the new depth is below 1. -/

structure VortexParticle where
  x : ℚ
  y : ℚ
  z : ℚ
  oX : ℚ
  oY : ℚ
  speed : ℚ

structure VortexRand where
  rx : ℚ
  ry : ℚ
  rz : ℚ
  roX : ℚ
  roY : ℚ
  rspeed : ℚ

def VortexParticle.respawn (r : VortexRand) : VortexParticle :=
  { x := r.rx, y := r.ry, z := r.rz, oX := r.roX, oY := r.roY, speed := r.rspeed }

def VortexParticle.update (flash : ℚ) (r : VortexRand) (v : VortexParticle) :
    VortexParticle :=
  let z := v.z - (v.speed + flash * 50)
  if z < 1 then VortexParticle.respawn r else { v with z := z }

/-! ### Neural grid connections (src/App.tsx, drawNeuralGrid lines 608-642)

For each unordered pair of nodes at distance `d` the loop draws a line iff
`d < 150`, with stroke alpha `p.map(d, 0, 150, 80, 0)`. -/

def connectionMaxDist : ℚ := 150

def connectionDrawn (d : ℚ) : Bool := decide (d < connectionMaxDist)

def connectionAlpha (d : ℚ) : ℚ := p5map d 0 connectionMaxDist 80 0

/-! ### Hand tracker shutdown (src/services/handTracking.ts, stop)

The tracker state records which of the external resources are currently
held; external calls made by `stop` are modelled as an emitted effect list.
The call to `hands.close()` sits in a try/catch whose failure only logs a
warning, modelled by the `closeThrows` flag adding a warn effect instead of
propagating; `stop` is therefore a total function. -/

structure HandTracker where
  hands : Bool
  camera : Bool
  videoStream : Bool
  cameraHasStop : Bool
  isActive : Bool

inductive TrackerEffect
  | trackStop
  | cameraStop
  | handsClose
  | warnCloseError
deriving DecidableEq

def HandTracker.stop (closeThrows : Bool) (t : HandTracker) :
    HandTracker × List TrackerEffect :=
  let camEffects :=
    if t.camera then
      (if t.videoStream then [TrackerEffect.trackStop] else []) ++
      (if t.cameraHasStop then [TrackerEffect.cameraStop] else [])
    else []
  let handsEffects :=
    if t.hands then
      TrackerEffect.handsClose ::
        (if closeThrows then [TrackerEffect.warnCloseError] else [])
    else []
  ({ t with isActive := false, hands := false }, camEffects ++ handsEffects)

/-! ### Liquid particles (src/App.tsx, LiquidParticle lines 367-480)

p5 vectors are modelled by `Vec2`; `limit` follows the p5 implementation
(compare the squared magnitude against the squared bound, then rescale) and
`normalize` divides by the magnitude unless it is zero.  The Perlin noise
field and the `random2D` turbulence draws are passed in as explicit
parameters.  `update` integrates the forces and then wraps the position at
the surface edges exactly as lines 436-439 of the source do. -/

structure Vec2 (F : Type) where
  x : F
  y : F

def Vec2.add {F : Type} [Add F] (v w : Vec2 F) : Vec2 F := ⟨v.x + w.x, v.y + w.y⟩

def Vec2.sub {F : Type} [Sub F] (v w : Vec2 F) : Vec2 F := ⟨v.x - w.x, v.y - w.y⟩

def Vec2.mult {F : Type} [Mul F] (v : Vec2 F) (s : F) : Vec2 F := ⟨v.x * s, v.y * s⟩

def Vec2.zero {F : Type} [Zero F] : Vec2 F := ⟨0, 0⟩

noncomputable def Vec2.mag (v : Vec2 ℝ) : ℝ := Real.sqrt (v.x ^ 2 + v.y ^ 2)

noncomputable def Vec2.normalize (v : Vec2 ℝ) : Vec2 ℝ :=
  if v.mag = 0 then v else v.mult (1 / v.mag)

noncomputable def Vec2.limit (v : Vec2 ℝ) (m : ℝ) : Vec2 ℝ :=
  if v.x ^ 2 + v.y ^ 2 > m ^ 2 then (v.mult (1 / v.mag)).mult m else v

noncomputable def Vec2.fromAngle (a : ℝ) : Vec2 ℝ := ⟨Real.cos a, Real.sin a⟩

structure HandCoordinates where
  x : ℝ
  y : ℝ

structure HandState where
  left : Option HandCoordinates
  right : Option HandCoordinates
  isLeftPinching : Bool
  isRightPinching : Bool
  leftSqueeze : ℝ
  rightSqueeze : ℝ

structure LiquidParticle (F : Type) where
  pos : Vec2 F
  prevPos : Vec2 F
  vel : Vec2 F
  acc : Vec2 F
  maxSpeed : F

/-- The drag force of src/App.tsx lines 411-414: the hand velocity copied,
normalized, and scaled by `p.map(d, 0, 300, 4, 0) * (velMag * 0.05)`. -/
noncomputable def dragForce (hVel : Vec2 ℝ) (d : ℝ) : Vec2 ℝ :=
  (Vec2.normalize hVel).mult (p5map d 0 300 4 0 * (Vec2.mag hVel * (5 / 100)))

/-- The total force one hand contributes to a particle acceleration in one
tick (src/App.tsx lines 393-423): within radius 400 an attraction of
magnitude `p.map(d, 0, 400, 1.5, 0)` toward the hand, plus, when the hand
speed exceeds 5, the drag force and the turbulence impulse `turb * 1.5`. -/
noncomputable def interact (width height : ℝ) (pos : Vec2 ℝ)
    (hand : Option HandCoordinates) (hVel turb : Vec2 ℝ) : Vec2 ℝ :=
  match hand with
  | none => Vec2.zero
  | some hc =>
    let handPos : Vec2 ℝ := ⟨hc.x * width, hc.y * height⟩
    let dir := handPos.sub pos
    let d := dir.mag
    if d < 400 then
      let attraction := (dir.normalize).mult (p5map d 0 400 (3 / 2) 0)
      if hVel.mag > 5 then
        (attraction.add (dragForce hVel d)).add (turb.mult (3 / 2))
      else attraction
    else Vec2.zero

/-- The edge wrap of src/App.tsx lines 436-439: four sequential ifs, each
resetting one coordinate of `pos` and the matching coordinate of
`prevPos`. -/
def wrapStep {F : Type} [LinearOrderedField F] (width height : F)
    (s : LiquidParticle F) : LiquidParticle F :=
  let s1 := if s.pos.x > width then
      { s with pos := ⟨0, s.pos.y⟩, prevPos := ⟨0, s.prevPos.y⟩ } else s
  let s2 := if s1.pos.x < 0 then
      { s1 with pos := ⟨width, s1.pos.y⟩, prevPos := ⟨width, s1.prevPos.y⟩ } else s1
  let s3 := if s2.pos.y > height then
      { s2 with pos := ⟨s2.pos.x, 0⟩, prevPos := ⟨s2.prevPos.x, 0⟩ } else s2
  if s3.pos.y < 0 then
    { s3 with pos := ⟨s3.pos.x, height⟩, prevPos := ⟨s3.prevPos.x, height⟩ } else s3

/-- Force accumulation and physics integration of one liquid update
(src/App.tsx lines 382-433), up to but excluding the edge wrap. -/
noncomputable def liquidIntegrate (width height frameCount : ℝ)
    (noise : ℝ → ℝ → ℝ → ℝ) (hands : HandState)
    (leftVel rightVel turbL turbR : Vec2 ℝ) (s : LiquidParticle ℝ) :
    LiquidParticle ℝ :=
  let nScale : ℝ := 5 / 1000
  let angle := noise (s.pos.x * nScale) (s.pos.y * nScale) (frameCount * (5 / 1000)) *
    (2 * Real.pi) * 4
  let flowForce := (Vec2.fromAngle angle).mult (1 / 2)
  let acc := ((s.acc.add flowForce).add
      (interact width height s.pos hands.left leftVel turbL)).add
      (interact width height s.pos hands.right rightVel turbR)
  let vel := ((s.vel.add acc).limit s.maxSpeed).mult (94 / 100)
  { pos := s.pos.add vel, prevPos := s.pos, vel := vel, acc := Vec2.zero,
    maxSpeed := s.maxSpeed }

noncomputable def LiquidParticle.update (width height frameCount : ℝ)
    (noise : ℝ → ℝ → ℝ → ℝ) (hands : HandState)
    (leftVel rightVel turbL turbR : Vec2 ℝ) (s : LiquidParticle ℝ) :
    LiquidParticle ℝ :=
  wrapStep width height
    (liquidIntegrate width height frameCount noise hands leftVel rightVel turbL turbR s)

def noHands : HandState :=
  { left := none, right := none, isLeftPinching := false, isRightPinching := false,
    leftSqueeze := 0, rightSqueeze := 0 }

/-- `n` consecutive liquid update ticks with no hands detected. -/
noncomputable def liquidRun (width height : ℝ) (noise : ℝ → ℝ → ℝ → ℝ)
    (s : LiquidParticle ℝ) : ℕ → LiquidParticle ℝ
  | 0 => s
  | n + 1 => LiquidParticle.update width height (n : ℝ) noise noHands
      Vec2.zero Vec2.zero Vec2.zero Vec2.zero (liquidRun width height noise s n)

/-! ### Claim theorems for the hand signal mapper and the beat flash -/

/-- C1: letting d be the mean Euclidean wrist-to-fingertip distance, the
squeeze reported by the mapper equals 1 - clamp((d - 0.15) / 0.25, 0, 1);
this function is non-increasing in d, takes the value 1.0 at d = 0.15, the
value 0.0 at d = 0.40 and the value 0.5 at d = 0.275, and for every landmark
list with at least 21 points the reported squeeze is exactly this function
applied to the mean distance of that list. -/
theorem squeeze_of_distance_spec :
    (∀ d1 d2 : ℚ, d1 ≤ d2 → squeezeOfAvgDist d2 ≤ squeezeOfAvgDist d1) ∧
    squeezeOfAvgDist (15 / 100 : ℚ) = 1 ∧
    squeezeOfAvgDist (40 / 100 : ℚ) = 0 ∧
    squeezeOfAvgDist (275 / 1000 : ℚ) = 1 / 2 ∧
    (∀ lms : List Landmark, ¬ lms.length < 21 →
      reportedSqueeze (some lms) = squeezeOfAvgDist (avgTipWristDist lms)) := by
  refine ⟨?_, by norm_num [squeezeOfAvgDist, opennessOfAvgDist],
    by norm_num [squeezeOfAvgDist, opennessOfAvgDist],
    by norm_num [squeezeOfAvgDist, opennessOfAvgDist], ?_⟩
  · intro d1 d2 h
    unfold squeezeOfAvgDist opennessOfAvgDist
    have h3 : (d1 - 15 / 100) / (25 / 100) ≤ (d2 - 15 / 100) / (25 / 100) := by gcongr
    exact sub_le_sub_left (max_le_max (le_refl 0) (min_le_min (le_refl 1) h3)) 1
  · intro lms h
    show 1 - (if lms.length < 21 then (0 : ℝ)
        else opennessOfAvgDist (avgTipWristDist lms)) = _
    rw [if_neg h]
    rfl

/-- Witness for C1 at concrete inputs. -/
theorem squeeze_of_distance_spec_witness :
    squeezeOfAvgDist (3 / 10 : ℚ) ≤ squeezeOfAvgDist (2 / 10 : ℚ) ∧
    reportedSqueeze (some (List.replicate 21 ⟨0, 0⟩)) =
      squeezeOfAvgDist (avgTipWristDist (List.replicate 21 ⟨0, 0⟩)) :=
  ⟨squeeze_of_distance_spec.1 (2 / 10) (3 / 10) (by norm_num),
   squeeze_of_distance_spec.2.2.2.2 _ (by simp)⟩

/-- C2 counterexample: the flash decay multiplies by 0.9 only while the flash
exceeds 0.01, so after 45 ticks the flash is still 0.9 to the 44, not
0.9 to the 45 as the claim demands for every n. -/
theorem beatFlash_decay_counterexample :
    beatFlashAfter 45 ≠ (9 / 10 : ℚ) ^ 45 := by
  have h : beatFlashAfter 45 = (9 / 10) ^ 44 := beatFlashAfter_of_ge 45 (by norm_num)
  rw [h]
  norm_num

/-- C2 amended: starting from flash 1.0 with no further beat events, a tick
multiplies the flash by 0.9 only while it exceeds 0.01; hence the flash
after n ticks equals 0.9 ^ n for n at most 44, stays frozen at 0.9 ^ 44 for
every n at least 44, and falls below 0.01 after exactly 44 ticks. -/
theorem beatFlash_decay_amended :
    (∀ n : ℕ, n ≤ 44 → beatFlashAfter n = (9 / 10) ^ n) ∧
    (∀ n : ℕ, 44 ≤ n → beatFlashAfter n = (9 / 10) ^ 44) ∧
    beatFlashAfter 44 < 1 / 100 ∧
    1 / 100 < beatFlashAfter 43 := by
  refine ⟨beatFlashAfter_of_le, beatFlashAfter_of_ge, ?_, ?_⟩
  · rw [beatFlashAfter_of_le 44 (le_refl 44)]
    norm_num
  · rw [beatFlashAfter_of_le 43 (by norm_num)]
    norm_num

/-- Witness for C2 amended at concrete tick counts. -/
theorem beatFlash_decay_amended_witness :
    beatFlashAfter 10 = (9 / 10 : ℚ) ^ 10 ∧
    beatFlashAfter 50 = (9 / 10 : ℚ) ^ 44 :=
  ⟨beatFlash_decay_amended.1 10 (by norm_num),
   beatFlash_decay_amended.2.1 50 (by norm_num)⟩

/-- C10: a missing landmark list, or one with fewer than 21 points, yields
openness 0, so the reported squeeze for that hand is 1.0 (full fist) rather
than an error or a null value. -/
theorem short_landmark_list_full_fist :
    ∀ lms : Option (List Landmark),
      (lms = none ∨ ∃ l, lms = some l ∧ l.length < 21) →
      getHandOpenness lms = 0 ∧ reportedSqueeze lms = 1 := by
  intro lms h
  rcases h with h | ⟨l, rfl, hl⟩
  · subst h
    constructor <;> simp [getHandOpenness, reportedSqueeze]
  · have h0 : getHandOpenness (some l) = 0 := by
      show (if l.length < 21 then (0 : ℝ) else opennessOfAvgDist (avgTipWristDist l)) = 0
      rw [if_pos hl]
    refine ⟨h0, ?_⟩
    rw [reportedSqueeze, h0]
    norm_num

/-- Witness for C10 at the empty landmark list. -/
theorem short_landmark_list_full_fist_witness :
    getHandOpenness (some []) = 0 ∧ reportedSqueeze (some []) = 1 :=
  short_landmark_list_full_fist (some []) (Or.inr ⟨[], rfl, by simp⟩)

theorem noteTriggerAfter_alive (k : ℕ) (h : k ≤ 19) :
    noteTriggerAfter k = some (1 - (5 / 100 : ℚ) * (k : ℚ)) := by
  induction k with
  | zero =>
    show (some 1 : Option ℚ) = _
    norm_num
  | succ m ih =>
    have hm : m ≤ 19 := Nat.le_of_succ_le h
    have hm18 : m ≤ 18 := by omega
    have hmq : (m : ℚ) ≤ 18 := by exact_mod_cast hm18
    have hpos : ¬ (1 - (5 / 100 : ℚ) * (m : ℚ) - 5 / 100 ≤ 0) := by
      push_neg
      linarith
    calc noteTriggerAfter (m + 1) = (noteTriggerAfter m).bind noteTriggerStep := rfl
      _ = noteTriggerStep (1 - (5 / 100 : ℚ) * (m : ℚ)) := by rw [ih hm]; rfl
      _ = some (1 - (5 / 100 : ℚ) * ((m : ℚ) + 1)) := by
          unfold noteTriggerStep
          rw [if_neg hpos]
          congr 1
          ring
      _ = some (1 - (5 / 100 : ℚ) * ((m + 1 : ℕ) : ℚ)) := by push_cast; ring_nf

theorem noteTriggerAfter_twenty : noteTriggerAfter 20 = none := by
  have h19 := noteTriggerAfter_alive 19 (le_refl 19)
  calc noteTriggerAfter 20 = (noteTriggerAfter 19).bind noteTriggerStep := rfl
    _ = noteTriggerStep (1 - (5 / 100 : ℚ) * ((19 : ℕ) : ℚ)) := by rw [h19]; rfl
    _ = none := by
        unfold noteTriggerStep
        rw [if_pos (by push_cast; norm_num)]

/-- C4: a note trigger created with life 1.0 survives exactly the ticks
k = 0 .. 19 with life 1 - 0.05 k at the start of tick k, is removed after
exactly 20 ticks, and at tick k is drawn with ring size
(1 - life) * 200 and stroke alpha life * 100. -/
theorem noteTrigger_lifecycle :
    (∀ k : ℕ, k < 20 → noteTriggerAfter k = some (1 - (5 / 100 : ℚ) * (k : ℚ))) ∧
    noteTriggerAfter 20 = none ∧
    (∀ k : ℕ, k < 20 →
      (noteTriggerAfter k).map noteRingSize =
        some ((1 - (1 - (5 / 100 : ℚ) * (k : ℚ))) * 200) ∧
      (noteTriggerAfter k).map noteRingAlpha =
        some ((1 - (5 / 100 : ℚ) * (k : ℚ)) * 100)) := by
  refine ⟨fun k hk => noteTriggerAfter_alive k (by omega), noteTriggerAfter_twenty, ?_⟩
  intro k hk
  rw [noteTriggerAfter_alive k (by omega)]
  exact ⟨rfl, rfl⟩

/-- Witness for C4 at tick 3: life 0.85, ring size 30, alpha 85. -/
theorem noteTrigger_lifecycle_witness :
    noteTriggerAfter 3 = some (17 / 20) ∧
    (noteTriggerAfter 3).map noteRingSize = some 30 := by
  have h1 := noteTrigger_lifecycle.1 3 (by norm_num)
  have h2 := (noteTrigger_lifecycle.2.2 3 (by norm_num)).1
  constructor
  · rw [h1]
    norm_num
  · rw [h2]
    norm_num

/-- C6: each vortex update decrements the depth by speed + flash * 50; when
the decremented depth is below the minimum 1 the particle respawns the same
tick with fresh planar offsets, depth in the far range 1000..2000 and speed
in 10..30; when the decremented depth is exactly 1 the next tick respawns
it. -/
theorem vortex_depth_and_respawn :
    ∀ (flash : ℚ) (r : VortexRand) (v : VortexParticle),
      10 ≤ v.speed → 0 ≤ flash →
      1000 ≤ r.rz → r.rz < 2000 → 10 ≤ r.rspeed → r.rspeed < 30 →
      (¬ v.z - (v.speed + flash * 50) < 1 →
        VortexParticle.update flash r v = { v with z := v.z - (v.speed + flash * 50) }) ∧
      (v.z - (v.speed + flash * 50) < 1 →
        VortexParticle.update flash r v = VortexParticle.respawn r ∧
        1000 ≤ (VortexParticle.update flash r v).z ∧
        (VortexParticle.update flash r v).z < 2000 ∧
        (VortexParticle.update flash r v).oX = r.roX ∧
        (VortexParticle.update flash r v).oY = r.roY ∧
        10 ≤ (VortexParticle.update flash r v).speed ∧
        (VortexParticle.update flash r v).speed < 30) ∧
      (v.z - (v.speed + flash * 50) = 1 →
        ∀ (flash2 : ℚ) (r2 : VortexRand), 0 ≤ flash2 →
          VortexParticle.update flash2 r2 (VortexParticle.update flash r v) =
            VortexParticle.respawn r2) := by
  intro flash r v hspeed hflash hz1 hz2 hs1 hs2
  refine ⟨?_, ?_, ?_⟩
  · intro h
    unfold VortexParticle.update
    rw [if_neg h]
  · intro h
    have he : VortexParticle.update flash r v = VortexParticle.respawn r := by
      unfold VortexParticle.update
      rw [if_pos h]
    rw [he]
    exact ⟨rfl, hz1, hz2, rfl, rfl, hs1, hs2⟩
  · intro h flash2 r2 hf2
    have hne : ¬ v.z - (v.speed + flash * 50) < 1 := by
      rw [h]
      exact lt_irrefl 1
    have he : VortexParticle.update flash r v = { v with z := v.z - (v.speed + flash * 50) } := by
      unfold VortexParticle.update
      rw [if_neg hne]
    rw [he]
    unfold VortexParticle.update
    rw [if_pos]
    show (v.z - (v.speed + flash * 50)) - (v.speed + flash2 * 50) < 1
    rw [h]
    linarith

/-- Witness for C6: a particle at depth 5 with speed 10 and no flash
respawns in the same tick. -/
theorem vortex_depth_and_respawn_witness :
    VortexParticle.update 0 ⟨1, 2, 1500, 3, 4, 20⟩ ⟨0, 0, 5, 0, 0, 10⟩ =
      VortexParticle.respawn ⟨1, 2, 1500, 3, 4, 20⟩ :=
  ((vortex_depth_and_respawn 0 ⟨1, 2, 1500, 3, 4, 20⟩ ⟨0, 0, 5, 0, 0, 10⟩
    (by norm_num) (by norm_num) (by norm_num) (by norm_num) (by norm_num)
    (by norm_num)).2.1 (by norm_num)).1

/-- C7: a connecting line between two neural nodes at distance d is drawn
iff d < 150; its alpha is a linearly decreasing function of d, maximal at
d = 0 with value 80, and 0 at d = 150. -/
theorem neural_connection_visibility :
    (∀ d : ℚ, connectionDrawn d = true ↔ d < 150) ∧
    connectionAlpha 0 = 80 ∧
    connectionAlpha 150 = 0 ∧
    (∀ d1 d2 : ℚ, d1 < d2 → connectionAlpha d2 < connectionAlpha d1) ∧
    (∀ d : ℚ, 0 ≤ d → connectionAlpha d ≤ connectionAlpha 0) := by
  refine ⟨?_, by norm_num [connectionAlpha, p5map, connectionMaxDist],
    by norm_num [connectionAlpha, p5map, connectionMaxDist], ?_, ?_⟩
  · intro d
    simp [connectionDrawn, connectionMaxDist]
  · intro d1 d2 h
    simp only [connectionAlpha, p5map, connectionMaxDist]
    ring_nf
    linarith
  · intro d hd
    simp only [connectionAlpha, p5map, connectionMaxDist]
    ring_nf
    linarith

/-- Witness for C7 at concrete distances. -/
theorem neural_connection_visibility_witness :
    (connectionDrawn 100 = true ↔ (100 : ℚ) < 150) ∧
    connectionAlpha 100 < connectionAlpha 40 ∧
    connectionAlpha 100 ≤ connectionAlpha 0 :=
  ⟨neural_connection_visibility.1 100,
   neural_connection_visibility.2.2.2.1 40 100 (by norm_num),
   neural_connection_visibility.2.2.2.2 100 (by norm_num)⟩

/-- C9: stopping the tracker twice leaves the same state as stopping it
once, never reaches the hands close call on the second stop, and leaves the
tracker inactive from any (possibly partially started) state; the close
error is caught, so stop is a total function. -/
theorem tracker_stop_idempotent :
    ∀ (t : HandTracker) (e1 e2 : Bool),
      (HandTracker.stop e2 (HandTracker.stop e1 t).1).1 = (HandTracker.stop e1 t).1 ∧
      (HandTracker.stop e1 t).1.isActive = false ∧
      (HandTracker.stop e2 (HandTracker.stop e1 t).1).1.isActive = false ∧
      TrackerEffect.handsClose ∉ (HandTracker.stop e2 (HandTracker.stop e1 t).1).2 := by
  intro t e1 e2
  obtain ⟨h, c, vs, chs, a⟩ := t
  refine ⟨rfl, rfl, rfl, ?_⟩
  cases c <;> cases vs <;> cases chs <;> simp [HandTracker.stop]

/-! ### Helper lemmas for the liquid system -/

theorem interact_none (width height : ℝ) (pos : Vec2 ℝ) (hVel turb : Vec2 ℝ) :
    interact width height pos none hVel turb = Vec2.zero := rfl

theorem mag_nonneg (v : Vec2 ℝ) : 0 ≤ Vec2.mag v := Real.sqrt_nonneg _

theorem mag_ten : Vec2.mag ⟨10, 0⟩ = 10 := by
  unfold Vec2.mag
  rw [show ((10 : ℝ) ^ 2 + (0 : ℝ) ^ 2) = 10 ^ 2 by norm_num]
  exact Real.sqrt_sq (by norm_num)

theorem normalize_ten : Vec2.normalize ⟨10, 0⟩ = (⟨1, 0⟩ : Vec2 ℝ) := by
  unfold Vec2.normalize
  rw [mag_ten, if_neg (by norm_num : ¬ (10 : ℝ) = 0)]
  unfold Vec2.mult
  norm_num

/-- The four sequential wrap ifs are equivalent to an independent
if-chain on each coordinate. -/
theorem wrapStep_eq {F : Type} [LinearOrderedField F] (width height : F)
    (s : LiquidParticle F) :
    wrapStep width height s =
      { s with
        pos := ⟨if s.pos.x > width then 0 else if s.pos.x < 0 then width else s.pos.x,
                if s.pos.y > height then 0 else if s.pos.y < 0 then height else s.pos.y⟩,
        prevPos := ⟨if s.pos.x > width then 0 else if s.pos.x < 0 then width else s.prevPos.x,
                    if s.pos.y > height then 0 else if s.pos.y < 0 then height else s.prevPos.y⟩ } := by
  unfold wrapStep
  by_cases h1 : s.pos.x > width <;> by_cases h2 : s.pos.x < 0 <;>
    by_cases h3 : s.pos.y > height <;> by_cases h4 : s.pos.y < 0 <;>
    simp [h1, h2, h3, h4]

/-- The wrap always leaves the position inside the closed box. -/
theorem wrapStep_bounds {F : Type} [LinearOrderedField F] (width height : F)
    (s : LiquidParticle F) (hw : 0 ≤ width) (hh : 0 ≤ height) :
    0 ≤ (wrapStep width height s).pos.x ∧ (wrapStep width height s).pos.x ≤ width ∧
    0 ≤ (wrapStep width height s).pos.y ∧ (wrapStep width height s).pos.y ≤ height := by
  rw [wrapStep_eq]
  refine ⟨?_, ?_, ?_, ?_⟩ <;> simp only [] <;> split_ifs <;> simp_all

/-! ### Claim theorems for the liquid system -/

/-- C3 counterexample: at hand velocity (10, 0) and distance 350, inside the
interaction radius 400 and above the speed threshold 5, the drag force is
(-1/3, 0), which is no non-negative multiple of the unit hand velocity
direction (1, 0): the unclamped p.map makes the scalar negative beyond
distance 300. -/
theorem liquid_drag_counterexample :
    ¬ ∃ c : ℝ, 0 ≤ c ∧ dragForce ⟨10, 0⟩ 350 = (Vec2.normalize ⟨10, 0⟩).mult c := by
  rintro ⟨c, hc, he⟩
  have hd : dragForce ⟨10, 0⟩ 350 = (⟨-(1 / 3), 0⟩ : Vec2 ℝ) := by
    unfold dragForce p5map
    rw [normalize_ten, mag_ten]
    unfold Vec2.mult
    simp only [Vec2.mk.injEq]
    norm_num
  rw [hd, normalize_ten] at he
  unfold Vec2.mult at he
  simp only [Vec2.mk.injEq] at he
  have hcv : (-(1 / 3) : ℝ) = 1 * c := he.1
  linarith

/-- C3 amended: for a fast hand (speed above 5) and a particle at distance
d of at most 300, the drag force is the non-negative scalar
(4 - 4 d / 300) * (speed * 0.05) times the unit hand velocity direction,
proportional to the hand speed and non-increasing in d on 0..300 (for
300 < d < 400 the scalar turns negative, opposing the hand direction);
within radius 400 and above the speed threshold this drag force is exactly
the second of the three force terms the hand adds to the particle
acceleration. -/
theorem liquid_drag_amended :
    ∀ (hVel : Vec2 ℝ) (d : ℝ), 5 < Vec2.mag hVel → 0 ≤ d → d ≤ 300 →
      dragForce hVel d =
        (Vec2.normalize hVel).mult ((4 - 4 * (d / 300)) * (Vec2.mag hVel * (5 / 100))) ∧
      0 ≤ (4 - 4 * (d / 300)) * (Vec2.mag hVel * (5 / 100)) ∧
      (∀ d2 : ℝ, d ≤ d2 → d2 ≤ 300 →
        (4 - 4 * (d2 / 300)) * (Vec2.mag hVel * (5 / 100)) ≤
          (4 - 4 * (d / 300)) * (Vec2.mag hVel * (5 / 100))) ∧
      (∀ (width height : ℝ) (pos : Vec2 ℝ) (hc : HandCoordinates) (turb : Vec2 ℝ),
        Vec2.mag ((⟨hc.x * width, hc.y * height⟩ : Vec2 ℝ).sub pos) = d →
        interact width height pos (some hc) hVel turb =
          (((((⟨hc.x * width, hc.y * height⟩ : Vec2 ℝ).sub pos).normalize).mult
              (p5map d 0 400 (3 / 2) 0)).add (dragForce hVel d)).add
            (turb.mult (3 / 2))) := by
  intro hVel d h5 hd0 hd300
  have hmagpos : 0 ≤ Vec2.mag hVel * (5 / 100) := by
    have := mag_nonneg hVel
    positivity
  refine ⟨?_, ?_, ?_, ?_⟩
  · unfold dragForce
    congr 1
    unfold p5map
    ring
  · apply mul_nonneg _ hmagpos
    linarith
  · intro d2 h1 h2
    apply mul_le_mul_of_nonneg_right _ hmagpos
    linarith
  · intro width height pos hc turb hmag
    unfold interact
    simp only []
    rw [hmag]
    rw [if_pos (by linarith : d < 400), if_pos (by exact gt_iff_lt.mpr h5)]

/-- Witness for C3 amended: hand velocity (10, 0), distance 150, drag force
(1, 0). -/
theorem liquid_drag_amended_witness :
    dragForce ⟨10, 0⟩ 150 = (⟨1, 0⟩ : Vec2 ℝ) ∧
    (0 : ℝ) ≤ (4 - 4 * ((150 : ℝ) / 300)) * (Vec2.mag ⟨10, 0⟩ * (5 / 100)) := by
  have h5 : (5 : ℝ) < Vec2.mag ⟨10, 0⟩ := by
    rw [mag_ten]
    norm_num
  obtain ⟨h1, h2, _, _⟩ := liquid_drag_amended ⟨10, 0⟩ 150 h5 (by norm_num) (by norm_num)
  refine ⟨?_, h2⟩
  rw [h1, normalize_ten, mag_ten]
  unfold Vec2.mult
  simp only [Vec2.mk.injEq]
  norm_num

/-- C5: a liquid update ends in the edge wrap, and the wrap sends a
position coordinate that left through one edge back to the opposite edge,
resetting the matching previous-position coordinate so no streak is drawn:
x above width goes to 0, x below 0 goes to width, y above height goes to 0,
y below 0 goes to height, in each case together with prevPos. -/
theorem liquid_wrap_spec :
    (∀ (width height frameCount : ℝ) (noise : ℝ → ℝ → ℝ → ℝ) (hands : HandState)
        (leftVel rightVel turbL turbR : Vec2 ℝ) (s : LiquidParticle ℝ),
      LiquidParticle.update width height frameCount noise hands leftVel rightVel
          turbL turbR s =
        wrapStep width height
          (liquidIntegrate width height frameCount noise hands leftVel rightVel
            turbL turbR s)) ∧
    (∀ (width height : ℚ) (s : LiquidParticle ℚ), 0 < width → 0 < height →
      (s.pos.x > width →
        (wrapStep width height s).pos.x = 0 ∧ (wrapStep width height s).prevPos.x = 0) ∧
      (s.pos.x < 0 →
        (wrapStep width height s).pos.x = width ∧
        (wrapStep width height s).prevPos.x = width) ∧
      (s.pos.y > height →
        (wrapStep width height s).pos.y = 0 ∧ (wrapStep width height s).prevPos.y = 0) ∧
      (s.pos.y < 0 →
        (wrapStep width height s).pos.y = height ∧
        (wrapStep width height s).prevPos.y = height)) := by
  refine ⟨fun _ _ _ _ _ _ _ _ _ _ => rfl, ?_⟩
  intro width height s hw hh
  rw [wrapStep_eq]
  refine ⟨fun hx => ?_, fun hx => ?_, fun hy => ?_, fun hy => ?_⟩
  · constructor <;> simp [hx]
  · have h1 : ¬ s.pos.x > width := by
      push_neg
      linarith
    constructor <;> simp [h1, hx]
  · constructor <;> simp [hy]
  · have h3 : ¬ s.pos.y > height := by
      push_neg
      linarith
    constructor <;> simp [h3, hy]

/-- Witness for C5: a particle at (150, -3) on a 100 by 100 surface wraps
to x = 0 with prevPos.x = 0. -/
theorem liquid_wrap_spec_witness :
    (wrapStep (100 : ℚ) 100
      { pos := ⟨150, -3⟩, prevPos := ⟨7, 8⟩, vel := ⟨0, 0⟩, acc := ⟨0, 0⟩,
        maxSpeed := 6 }).pos.x = 0 ∧
    (wrapStep (100 : ℚ) 100
      { pos := ⟨150, -3⟩, prevPos := ⟨7, 8⟩, vel := ⟨0, 0⟩, acc := ⟨0, 0⟩,
        maxSpeed := 6 }).prevPos.x = 0 :=
  (liquid_wrap_spec.2 100 100
    { pos := ⟨150, -3⟩, prevPos := ⟨7, 8⟩, vel := ⟨0, 0⟩, acc := ⟨0, 0⟩, maxSpeed := 6 }
    (by norm_num) (by norm_num)).1 (by norm_num)

/-- C8 counterexample: on a 100 by 100 surface with no hands, a particle at
(0, 50) pushed left by the noise flow (noise value 1/8 gives flow angle pi)
is wrapped to pos.x = width = 100 after one update, leaving the half-open
box [0, width) of the claim. -/
theorem liquid_box_counterexample :
    ¬ ((liquidRun 100 100 (fun _ _ _ => 1 / 8)
        { pos := ⟨0, 50⟩, prevPos := ⟨0, 50⟩, vel := ⟨0, 0⟩, acc := ⟨0, 0⟩,
          maxSpeed := 6 } 1).pos.x < 100) := by
  have hint : liquidIntegrate 100 100 ((0 : ℕ) : ℝ) (fun _ _ _ => 1 / 8) noHands
      Vec2.zero Vec2.zero Vec2.zero Vec2.zero
      { pos := ⟨0, 50⟩, prevPos := ⟨0, 50⟩, vel := ⟨0, 0⟩, acc := ⟨0, 0⟩, maxSpeed := 6 } =
      { pos := ⟨-(47 / 100), 50⟩, prevPos := ⟨0, 50⟩, vel := ⟨-(47 / 100), 0⟩,
        acc := Vec2.zero, maxSpeed := 6 } := by
    unfold liquidIntegrate
    simp only [noHands, interact_none, Vec2.add, Vec2.zero, Vec2.fromAngle]
    rw [show (1 / 8 : ℝ) * (2 * Real.pi) * 4 = Real.pi by ring]
    rw [Real.cos_pi, Real.sin_pi]
    simp only [Vec2.mult, Vec2.limit]
    rw [if_neg (by norm_num)]
    simp only [LiquidParticle.mk.injEq, Vec2.mk.injEq]
    norm_num
  show ¬ ((LiquidParticle.update 100 100 ((0 : ℕ) : ℝ) (fun _ _ _ => 1 / 8) noHands
      Vec2.zero Vec2.zero Vec2.zero Vec2.zero
      { pos := ⟨0, 50⟩, prevPos := ⟨0, 50⟩, vel := ⟨0, 0⟩, acc := ⟨0, 0⟩,
        maxSpeed := 6 }).pos.x < 100)
  unfold LiquidParticle.update
  rw [hint, wrapStep_eq]
  norm_num

/-- C8 amended: with no hands detected, starting inside the surface, after
any number of update ticks every particle position stays inside the closed
box [0, width] x [0, height] (the x wrap for x below 0 lands exactly on
width, so the half-open box of the claim is not preserved, but the closed
box is, and all coordinates remain real numbers). -/
theorem liquid_box_amended :
    ∀ (width height : ℝ) (noise : ℝ → ℝ → ℝ → ℝ) (s : LiquidParticle ℝ) (n : ℕ),
      0 ≤ width → 0 ≤ height →
      0 ≤ s.pos.x → s.pos.x ≤ width → 0 ≤ s.pos.y → s.pos.y ≤ height →
      0 ≤ (liquidRun width height noise s n).pos.x ∧
      (liquidRun width height noise s n).pos.x ≤ width ∧
      0 ≤ (liquidRun width height noise s n).pos.y ∧
      (liquidRun width height noise s n).pos.y ≤ height := by
  intro width height noise s n hw hh h1 h2 h3 h4
  induction n with
  | zero => exact ⟨h1, h2, h3, h4⟩
  | succ m ih =>
    show 0 ≤ (LiquidParticle.update width height (m : ℝ) noise noHands
        Vec2.zero Vec2.zero Vec2.zero Vec2.zero (liquidRun width height noise s m)).pos.x ∧ _
    exact wrapStep_bounds width height _ hw hh

/-- Witness for C8 amended: 100 hand-free ticks from (0, 0) on a 100 by 100
surface stay inside the closed box. -/
theorem liquid_box_amended_witness :
    0 ≤ (liquidRun 100 100 (fun _ _ _ => 0)
      { pos := ⟨0, 0⟩, prevPos := ⟨0, 0⟩, vel := ⟨0, 0⟩, acc := ⟨0, 0⟩,
        maxSpeed := 6 } 100).pos.x ∧
    (liquidRun 100 100 (fun _ _ _ => 0)
      { pos := ⟨0, 0⟩, prevPos := ⟨0, 0⟩, vel := ⟨0, 0⟩, acc := ⟨0, 0⟩,
        maxSpeed := 6 } 100).pos.x ≤ 100 ∧
    0 ≤ (liquidRun 100 100 (fun _ _ _ => 0)
      { pos := ⟨0, 0⟩, prevPos := ⟨0, 0⟩, vel := ⟨0, 0⟩, acc := ⟨0, 0⟩,
        maxSpeed := 6 } 100).pos.y ∧
    (liquidRun 100 100 (fun _ _ _ => 0)
      { pos := ⟨0, 0⟩, prevPos := ⟨0, 0⟩, vel := ⟨0, 0⟩, acc := ⟨0, 0⟩,
        maxSpeed := 6 } 100).pos.y ≤ 100 :=
  liquid_box_amended 100 100 (fun _ _ _ => 0)
    { pos := ⟨0, 0⟩, prevPos := ⟨0, 0⟩, vel := ⟨0, 0⟩, acc := ⟨0, 0⟩, maxSpeed := 6 }
    100 (by norm_num) (by norm_num) (by norm_num) (by norm_num) (by norm_num)
    (by norm_num)

end HandsOfRhythm
